import Mathlib

/-!
Formalisation of kiui/cam.py (camera geometry utilities) over the real
numbers: look-at rotation construction, orbit <-> pose conversion,
perspective projection, and the interactive orbit camera state.
NumPy floating-point arrays are modelled as real vectors and matrices;
scipy rotations are modelled by their 3x3 rotation matrices
(Rotation.from_matrix / as_matrix become the identity, composition is
matrix multiplication, from_rotvec is the Rodrigues formula).
-/

namespace Kiui

noncomputable section

abbrev Vec3 := Fin 3 → ℝ

abbrev Mat3 := Matrix (Fin 3) (Fin 3) ℝ

abbrev Mat4 := Matrix (Fin 4) (Fin 4) ℝ

/-- np.deg2rad. -/
def deg2rad (x : ℝ) : ℝ := x * (Real.pi / 180)

/-- np.rad2deg. -/
def rad2deg (x : ℝ) : ℝ := x * (180 / Real.pi)

/-- Euclidean norm of a 3-vector (np.linalg.norm on shape [3]). -/
def norm3 (v : Vec3) : ℝ := Real.sqrt (v 0 ^ 2 + v 1 ^ 2 + v 2 ^ 2)

/-- np.cross on 3-vectors. -/
def cross3 (a b : Vec3) : Vec3 :=
  ![a 1 * b 2 - a 2 * b 1, a 2 * b 0 - a 0 * b 2, a 0 * b 1 - a 1 * b 0]

/-- Modelled from the spec: `safe_normalize` comes from kiui/op.py, which is not
among the sources; the spec describes it as 3D vector normalization
(the vector divided by its Euclidean norm), with near-zero input a documented
singularity. -/
def safe_normalize (v : Vec3) : Vec3 := fun i => v i / norm3 v

/-- look_at(campos, target, opengl): rotation matrix whose columns are
[right, up, forward], built with np.stack(..., axis=1). -/
def look_at (campos target : Vec3) (opengl : Bool) : Mat3 :=
  if opengl then
    let forward_vector := safe_normalize (fun i => campos i - target i)
    let up_vector : Vec3 := ![0, 1, 0]
    let right_vector := safe_normalize (cross3 up_vector forward_vector)
    let up_vector2 := safe_normalize (cross3 forward_vector right_vector)
    Matrix.of fun i j => ![right_vector, up_vector2, forward_vector] j i
  else
    let forward_vector := safe_normalize (fun i => target i - campos i)
    let up_vector : Vec3 := ![0, 1, 0]
    let right_vector := safe_normalize (cross3 forward_vector up_vector)
    let up_vector2 := safe_normalize (cross3 right_vector forward_vector)
    Matrix.of fun i j => ![right_vector, up_vector2, forward_vector] j i

/-- orbit_camera(elevation, azimuth, radius, is_degree, target, opengl):
elevation and azimuth to a 4x4 camera pose matrix (T = eye(4);
T[:3,:3] = look_at(campos, target); T[:3,3] = campos). -/
def orbit_camera (elevation azimuth radius : ℝ) (is_degree : Bool)
    (target : Option Vec3) (opengl : Bool) : Mat4 :=
  let elevation2 := if is_degree then deg2rad elevation else elevation
  let azimuth2 := if is_degree then deg2rad azimuth else azimuth
  let x := radius * Real.cos elevation2 * Real.sin azimuth2
  let y := -radius * Real.sin elevation2
  let z := radius * Real.cos elevation2 * Real.cos azimuth2
  let targetV := target.getD (fun _ => 0)
  let campos : Vec3 := fun i => ![x, y, z] i + targetV i
  let R := look_at campos targetV opengl
  !![R 0 0, R 0 1, R 0 2, campos 0;
     R 1 0, R 1 1, R 1 2, campos 1;
     R 2 0, R 2 1, R 2 2, campos 2;
     0, 0, 0, 1]

/-- np.arctan2 modelled as the complex argument: arctan2 y x = arg (x + y*I),
the angle of the point (x, y) in (-pi, pi]. -/
def arctan2 (y x : ℝ) : ℝ := Complex.arg (x + y * Complex.I)

/-- undo_orbit_camera(T, is_degree): pose matrix back to
(elevation, azimuth, radius), assuming target at the origin. -/
def undo_orbit_camera (T : Mat4) (is_degree : Bool) : ℝ × ℝ × ℝ :=
  let campos : Vec3 := ![T 0 3, T 1 3, T 2 3]
  let radius := norm3 campos
  let elevation := Real.arcsin (-campos 1 / radius)
  let azimuth := arctan2 (campos 0) (campos 2)
  let elevation2 := if is_degree then rad2deg elevation else elevation
  let azimuth2 := if is_degree then rad2deg azimuth else azimuth
  (elevation2, azimuth2, radius)

/-- get_perspective(fovy, aspect, near, far): perspective projection matrix,
fovy in degrees. -/
def get_perspective (fovy aspect near far : ℝ) : Mat4 :=
  let y := Real.tan (deg2rad fovy / 2)
  !![1 / (y * aspect), 0, 0, 0;
     0, -1 / y, 0, 0;
     0, 0, -(far + near) / (far - near), -(2 * far * near) / (far - near);
     0, 0, -1, 0]

/-- State of the interactive orbit camera (class OrbitCamera). The scipy
Rotation field `rot` is modelled by its 3x3 rotation matrix. -/
structure OrbitCamera where
  W : ℕ
  H : ℕ
  radius : ℝ
  fovy : ℝ
  near : ℝ
  far : ℝ
  center : Vec3
  rot : Mat3
  up : Vec3

/-- OrbitCamera.__init__(W, H, r, fovy, near, far); the Python defaults are
r=2, fovy=60, near=0.01, far=100, passed explicitly here. -/
def OrbitCamera.init (W H : ℕ) (r fovy near far : ℝ) : OrbitCamera :=
  ⟨W, H, r, deg2rad fovy, near, far, ![0, 0, 0], 1, ![0, 1, 0]⟩

/-- First step of OrbitCamera.pose: res = eye(4); res[2,3] = radius
(move the camera to radius along the +z forward axis). -/
def transRadius (r : ℝ) : Mat4 :=
  !![1, 0, 0, 0;
     0, 1, 0, 0;
     0, 0, 1, r;
     0, 0, 0, 1]

/-- Second step of OrbitCamera.pose: rot = eye(4); rot[:3,:3] = R
(the rotation as a homogeneous 4x4 matrix). -/
def rotHom (R : Mat3) : Mat4 :=
  !![R 0 0, R 0 1, R 0 2, 0;
     R 1 0, R 1 1, R 1 2, 0;
     R 2 0, R 2 1, R 2 2, 0;
     0, 0, 0, 1]

/-- Last step of OrbitCamera.pose: res[:3,3] -= center. -/
def subCenterCol (M : Mat4) (c : Vec3) : Mat4 :=
  !![M 0 0, M 0 1, M 0 2, M 0 3 - c 0;
     M 1 0, M 1 1, M 1 2, M 1 3 - c 1;
     M 2 0, M 2 1, M 2 2, M 2 3 - c 2;
     M 3 0, M 3 1, M 3 2, M 3 3]

/-- OrbitCamera.pose (camera-to-world), composed of the three steps above:
move the camera to radius (res = eye(4); res[2,3] = radius), rotate
(res = rot4 @ res), translate (res[:3,3] -= center). -/
def OrbitCamera.pose (s : OrbitCamera) : Mat4 :=
  subCenterCol (rotHom s.rot * transRadius s.radius) s.center

/-- OrbitCamera.view (world-to-camera): matrix inverse of pose. -/
def OrbitCamera.view (s : OrbitCamera) : Mat4 := s.pose⁻¹

/-- OrbitCamera.campos: translation column pose[:3, 3]. -/
def OrbitCamera.campos (s : OrbitCamera) : Vec3 :=
  ![s.pose 0 3, s.pose 1 3, s.pose 2 3]

/-- OrbitCamera.perspective (fovy already in radians, aspect = W / H). -/
def OrbitCamera.perspective (s : OrbitCamera) : Mat4 :=
  let y := Real.tan (s.fovy / 2)
  let aspect := (s.W : ℝ) / (s.H : ℝ)
  !![1 / (y * aspect), 0, 0, 0;
     0, -1 / y, 0, 0;
     0, 0, -(s.far + s.near) / (s.far - s.near), -(2 * s.far * s.near) / (s.far - s.near);
     0, 0, -1, 0]

/-- OrbitCamera.intrinsics: [focal, focal, W // 2, H // 2] with focal =
H / (2 tan(fovy/2)); W // 2 and H // 2 are Python integer floor divisions,
modelled by natural-number division. -/
def OrbitCamera.intrinsics (s : OrbitCamera) : Fin 4 → ℝ :=
  let focal := (s.H : ℝ) / (2 * Real.tan (s.fovy / 2))
  ![focal, focal, ((s.W / 2 : ℕ) : ℝ), ((s.H / 2 : ℕ) : ℝ)]

/-- OrbitCamera.fovx. -/
def OrbitCamera.fovx (s : OrbitCamera) : ℝ :=
  2 * Real.arctan (Real.tan (s.fovy / 2) * (s.W : ℝ) / (s.H : ℝ))

/-- OrbitCamera.mvp: perspective @ inv(pose). -/
def OrbitCamera.mvp (s : OrbitCamera) : Mat4 := s.perspective * s.pose⁻¹

/-- Skew-symmetric cross-product matrix of a 3-vector. -/
def skew (n : Vec3) : Mat3 :=
  !![0, -n 2, n 1;
     n 2, 0, -n 0;
     -n 1, n 0, 0]

/-- scipy Rotation.from_rotvec(v).as_matrix(): the Rodrigues rotation about
axis v / ‖v‖ by angle ‖v‖ (the identity matrix at v = 0). -/
def from_rotvec (v : Vec3) : Mat3 :=
  let theta := norm3 v
  let n : Vec3 := fun i => v i / theta
  1 + Real.sin theta • skew n + (1 - Real.cos theta) • (skew n * skew n)

/-- The rotation about a (unit) axis n by angle theta as the spec words it,
written with the axis left unnormalized: used to compare the orbit update
against the spec's description. -/
def axisAngle (n : Vec3) (theta : ℝ) : Mat3 :=
  1 + Real.sin theta • skew n + (1 - Real.cos theta) • (skew n * skew n)

/-- OrbitCamera.orbit(dx, dy): rotate about the world up axis and the camera
side axis (first column of rot); np.radians is deg2rad. -/
def OrbitCamera.orbit (s : OrbitCamera) (dx dy : ℝ) : OrbitCamera :=
  let side : Vec3 := fun i => s.rot i 0
  let rotvec_x : Vec3 := fun i => s.up i * deg2rad (-0.05 * dx)
  let rotvec_y : Vec3 := fun i => side i * deg2rad (-0.05 * dy)
  { s with rot := from_rotvec rotvec_x * from_rotvec rotvec_y * s.rot }

/-- OrbitCamera.scale(delta): radius *= 1.1 ** (-delta). -/
def OrbitCamera.scale (s : OrbitCamera) (delta : ℝ) : OrbitCamera :=
  { s with radius := s.radius * (1.1 : ℝ) ^ (-delta) }

/-- OrbitCamera.pan(dx, dy, dz): center += 0.0005 * rot @ [dx, -dy, dz]. -/
def OrbitCamera.pan (s : OrbitCamera) (dx dy dz : ℝ) : OrbitCamera :=
  { s with center := fun i => s.center i + 0.0005 * (s.rot.mulVec ![dx, -dy, dz]) i }

/-- OrbitCamera.from_angle(elevation, azimuth, is_degree): reset rot from
elevation and azimuth via look_at at the current radius, target the origin. -/
def OrbitCamera.from_angle (s : OrbitCamera) (elevation azimuth : ℝ)
    (is_degree : Bool) : OrbitCamera :=
  let elevation2 := if is_degree then deg2rad elevation else elevation
  let azimuth2 := if is_degree then deg2rad azimuth else azimuth
  let x := s.radius * Real.cos elevation2 * Real.sin azimuth2
  let y := -s.radius * Real.sin elevation2
  let z := s.radius * Real.cos elevation2 * Real.cos azimuth2
  let campos : Vec3 := ![x, y, z]
  let rot_mat := look_at campos (fun _ => 0) true
  { s with rot := rot_mat }

/-- Upper-left 3x3 block of a 4x4 matrix (the rotation block of a pose). -/
def ul3 (T : Mat4) : Mat3 :=
  !![T 0 0, T 0 1, T 0 2;
     T 1 0, T 1 1, T 1 2;
     T 2 0, T 2 1, T 2 2]

/-- The perspective matrix exactly as the spec describes it, entrywise:
used to compare `get_perspective` against the spec's wording. -/
def claimedPerspective (fovy aspect near far : ℝ) : Mat4 :=
  Matrix.of fun i j =>
    if i = 0 ∧ j = 0 then 1 / (Real.tan (deg2rad fovy / 2) * aspect)
    else if i = 1 ∧ j = 1 then -1 / Real.tan (deg2rad fovy / 2)
    else if i = 2 ∧ j = 2 then -(far + near) / (far - near)
    else if i = 2 ∧ j = 3 then -(2 * far * near) / (far - near)
    else if i = 3 ∧ j = 2 then -1
    else 0

/-- The translation column of the pose matrix in closed form:
rot applied to (0, 0, radius), minus center. -/
def poseTrans (s : OrbitCamera) : Vec3 :=
  ![s.rot 0 2 * s.radius - s.center 0,
    s.rot 1 2 * s.radius - s.center 1,
    s.rot 2 2 * s.radius - s.center 2]

/-- Explicit candidate inverse of the pose matrix (the world-to-camera view
matrix): top-left block the transpose of rot, translation column the negated
transpose of rot applied to the pose translation, bottom row (0,0,0,1). -/
def poseInvCandidate (s : OrbitCamera) : Mat4 :=
  !![s.rot 0 0, s.rot 1 0, s.rot 2 0,
       -(s.rot 0 0 * poseTrans s 0 + s.rot 1 0 * poseTrans s 1 +
         s.rot 2 0 * poseTrans s 2);
     s.rot 0 1, s.rot 1 1, s.rot 2 1,
       -(s.rot 0 1 * poseTrans s 0 + s.rot 1 1 * poseTrans s 1 +
         s.rot 2 1 * poseTrans s 2);
     s.rot 0 2, s.rot 1 2, s.rot 2 2,
       -(s.rot 0 2 * poseTrans s 0 + s.rot 1 2 * poseTrans s 1 +
         s.rot 2 2 * poseTrans s 2);
     0, 0, 0, 1]

/-- Concrete camera with an odd viewport height, showing that the cy component
of intrinsics is computed by floor division as well. -/
def oddHeightCamera : OrbitCamera := OrbitCamera.init 4 3 2 60 0.01 100

/-- Concrete camera whose center is away from the origin (rot = identity,
radius 1, center (1,0,0)): its camera position is (-1,0,1). -/
def offCenterCamera : OrbitCamera := ⟨1, 1, 1, 1, 1, 2, ![1, 0, 0], 1, ![0, 1, 0]⟩

/-- Concrete camera with a nontrivial center used as the C2 witness state. -/
def pannedCamera : OrbitCamera := ⟨1, 1, 5, 1, 1, 2, ![1, 2, 3], 1, ![0, 1, 0]⟩

/-- Helper: the translation column of the pose, in closed form. -/
theorem campos_apply (s : OrbitCamera) :
    s.campos = ![s.rot 0 2 * s.radius - s.center 0,
                 s.rot 1 2 * s.radius - s.center 1,
                 s.rot 2 2 * s.radius - s.center 2] := by
  funext i
  fin_cases i <;>
    simp [OrbitCamera.campos, OrbitCamera.pose, subCenterCol, rotHom, transRadius,
      Matrix.mul_apply, Fin.sum_univ_four, Matrix.vecHead, Matrix.vecTail] <;> ring

/-- C6: for fovy in (0, 180) degrees, aspect > 0 and 0 < near < far,
get_perspective returns exactly the matrix with [0,0] = 1/(y*aspect),
[1,1] = -1/y for y = tan(fovy/2 in radians), [2,2] = -(far+near)/(far-near),
[2,3] = -(2 far near)/(far-near), [3,2] = -1, and zero elsewhere. -/
theorem C6_get_perspective_entries (fovy aspect near far : ℝ)
    (hfov : 0 < fovy ∧ fovy < 180) (ha : 0 < aspect) (hnf : 0 < near ∧ near < far) :
    get_perspective fovy aspect near far = claimedPerspective fovy aspect near far := by
  ext i j
  fin_cases i <;> fin_cases j <;>
    simp [get_perspective, claimedPerspective, Matrix.vecHead, Matrix.vecTail]

/-- C6 witness: the entry identity evaluated at fovy 90, aspect 1, near 1, far 2. -/
theorem C6_get_perspective_entries_witness :
    get_perspective 90 1 1 2 = claimedPerspective 90 1 1 2 :=
  C6_get_perspective_entries 90 1 1 2 (by norm_num) (by norm_num) (by norm_num)

/-- C7 counterexample: for the 4x3 viewport camera, the cy component of
intrinsics is H // 2 = 1, not H / 2 = 1.5 as the claim states. -/
theorem C7_intrinsics_cy_counterexample :
    oddHeightCamera.intrinsics 3 ≠ (oddHeightCamera.H : ℝ) / 2 := by
  simp [oddHeightCamera, OrbitCamera.intrinsics, OrbitCamera.init]
  norm_num

/-- C7 (amended): intrinsics returns (f, f, cx, cy) with
f = H / (2 tan(fovy/2)) for both axes, and BOTH cx = W // 2 and cy = H // 2
computed with integer floor division. -/
theorem C7_intrinsics (s : OrbitCamera) (hW : 0 < s.W) (hH : 0 < s.H)
    (hf : 0 < s.fovy ∧ s.fovy < Real.pi) :
    s.intrinsics 0 = (s.H : ℝ) / (2 * Real.tan (s.fovy / 2)) ∧
    s.intrinsics 1 = (s.H : ℝ) / (2 * Real.tan (s.fovy / 2)) ∧
    s.intrinsics 2 = ((s.W / 2 : ℕ) : ℝ) ∧
    s.intrinsics 3 = ((s.H / 2 : ℕ) : ℝ) :=
  ⟨rfl, rfl, rfl, rfl⟩

/-- C7 witness: the amended intrinsics identity at an 8x6 viewport camera. -/
theorem C7_intrinsics_witness :
    (OrbitCamera.init 8 6 2 60 0.01 100).intrinsics 0 =
      ((OrbitCamera.init 8 6 2 60 0.01 100).H : ℝ) /
        (2 * Real.tan ((OrbitCamera.init 8 6 2 60 0.01 100).fovy / 2)) ∧
    (OrbitCamera.init 8 6 2 60 0.01 100).intrinsics 1 =
      ((OrbitCamera.init 8 6 2 60 0.01 100).H : ℝ) /
        (2 * Real.tan ((OrbitCamera.init 8 6 2 60 0.01 100).fovy / 2)) ∧
    (OrbitCamera.init 8 6 2 60 0.01 100).intrinsics 2 =
      (((OrbitCamera.init 8 6 2 60 0.01 100).W / 2 : ℕ) : ℝ) ∧
    (OrbitCamera.init 8 6 2 60 0.01 100).intrinsics 3 =
      (((OrbitCamera.init 8 6 2 60 0.01 100).H / 2 : ℕ) : ℝ) :=
  C7_intrinsics (OrbitCamera.init 8 6 2 60 0.01 100)
    (by norm_num [OrbitCamera.init])
    (by norm_num [OrbitCamera.init])
    (by
      constructor
      · show 0 < deg2rad 60
        unfold deg2rad
        positivity
      · show deg2rad 60 < Real.pi
        unfold deg2rad
        nlinarith [Real.pi_pos])

/-- C8: scale(1) strictly decreases radius, scale(-1) strictly increases it,
scale(0) leaves it unchanged, and in general scale(delta) multiplies radius
by 1.1 ^ (-delta). -/
theorem C8_scale_zoom (s : OrbitCamera) (delta : ℝ) (hr : 0 < s.radius) :
    (s.scale 1).radius < s.radius ∧
    s.radius < (s.scale (-1)).radius ∧
    (s.scale 0).radius = s.radius ∧
    (s.scale delta).radius = s.radius * (1.1 : ℝ) ^ (-delta) := by
  refine ⟨?_, ?_, ?_, rfl⟩
  · show s.radius * (1.1 : ℝ) ^ (-(1 : ℝ)) < s.radius
    rw [Real.rpow_neg_one]
    have h : (1.1 : ℝ)⁻¹ < 1 := by norm_num
    nlinarith
  · show s.radius < s.radius * (1.1 : ℝ) ^ (-(-1 : ℝ))
    rw [neg_neg, Real.rpow_one]
    nlinarith
  · show s.radius * (1.1 : ℝ) ^ (-(0 : ℝ)) = s.radius
    rw [neg_zero, Real.rpow_zero, mul_one]

/-- C8 witness: the zoom facts at a freshly constructed camera (radius 2),
with delta = 3 for the general multiplicative law. -/
theorem C8_scale_zoom_witness :
    ((OrbitCamera.init 1 1 2 60 0.01 100).scale 1).radius <
      (OrbitCamera.init 1 1 2 60 0.01 100).radius ∧
    (OrbitCamera.init 1 1 2 60 0.01 100).radius <
      ((OrbitCamera.init 1 1 2 60 0.01 100).scale (-1)).radius ∧
    ((OrbitCamera.init 1 1 2 60 0.01 100).scale 0).radius =
      (OrbitCamera.init 1 1 2 60 0.01 100).radius ∧
    ((OrbitCamera.init 1 1 2 60 0.01 100).scale 3).radius =
      (OrbitCamera.init 1 1 2 60 0.01 100).radius * (1.1 : ℝ) ^ (-(3 : ℝ)) :=
  C8_scale_zoom (OrbitCamera.init 1 1 2 60 0.01 100) 3 (by norm_num [OrbitCamera.init])

/-- C10: each OrbitCamera mutator modifies only its own state field: orbit and
from_angle change only rot, scale changes only radius, pan changes only
center, and no mutator ever modifies W, H, fovy, near, far, or up. -/
theorem C10_mutator_frame (s : OrbitCamera) (dx dy dz delta e a : ℝ) (deg : Bool) :
    ((s.orbit dx dy).W = s.W ∧ (s.orbit dx dy).H = s.H ∧
      (s.orbit dx dy).radius = s.radius ∧ (s.orbit dx dy).fovy = s.fovy ∧
      (s.orbit dx dy).near = s.near ∧ (s.orbit dx dy).far = s.far ∧
      (s.orbit dx dy).center = s.center ∧ (s.orbit dx dy).up = s.up) ∧
    ((s.scale delta).W = s.W ∧ (s.scale delta).H = s.H ∧
      (s.scale delta).fovy = s.fovy ∧ (s.scale delta).near = s.near ∧
      (s.scale delta).far = s.far ∧ (s.scale delta).center = s.center ∧
      (s.scale delta).rot = s.rot ∧ (s.scale delta).up = s.up) ∧
    ((s.pan dx dy dz).W = s.W ∧ (s.pan dx dy dz).H = s.H ∧
      (s.pan dx dy dz).radius = s.radius ∧ (s.pan dx dy dz).fovy = s.fovy ∧
      (s.pan dx dy dz).near = s.near ∧ (s.pan dx dy dz).far = s.far ∧
      (s.pan dx dy dz).rot = s.rot ∧ (s.pan dx dy dz).up = s.up) ∧
    ((s.from_angle e a deg).W = s.W ∧ (s.from_angle e a deg).H = s.H ∧
      (s.from_angle e a deg).radius = s.radius ∧
      (s.from_angle e a deg).fovy = s.fovy ∧
      (s.from_angle e a deg).near = s.near ∧ (s.from_angle e a deg).far = s.far ∧
      (s.from_angle e a deg).center = s.center ∧
      (s.from_angle e a deg).up = s.up) :=
  ⟨⟨rfl, rfl, rfl, rfl, rfl, rfl, rfl, rfl⟩,
   ⟨rfl, rfl, rfl, rfl, rfl, rfl, rfl, rfl⟩,
   ⟨rfl, rfl, rfl, rfl, rfl, rfl, rfl, rfl⟩,
   ⟨rfl, rfl, rfl, rfl, rfl, rfl, rfl, rfl⟩⟩

/-- C2 counterexample: for the camera with rot = identity, radius 1 and
center (1,0,0), the camera position (-1,0,1) is at distance sqrt 5, not
radius 1, from center. -/
theorem C2_campos_distance_counterexample :
    norm3 (fun i => offCenterCamera.campos i - offCenterCamera.center i) ≠
      offCenterCamera.radius := by
  have hc : (fun i => offCenterCamera.campos i - offCenterCamera.center i) =
      ![-2, 0, 1] := by
    funext i
    fin_cases i <;>
      simp [campos_apply, offCenterCamera, Matrix.one_apply] <;> norm_num
  rw [hc]
  show Real.sqrt ((-2 : ℝ) ^ 2 + (0 : ℝ) ^ 2 + (1 : ℝ) ^ 2) ≠ 1
  intro h
  have h5 : ((-2 : ℝ) ^ 2 + (0 : ℝ) ^ 2 + (1 : ℝ) ^ 2) = 5 := by norm_num
  rw [h5] at h
  have : (5 : ℝ) = 1 := by
    have := Real.sqrt_eq_one.mp h
    exact this
  norm_num at this

/-- C2 (amended): for every camera state whose rot has orthonormal columns and
whose radius is nonnegative, the camera position read from pose lies at
Euclidean distance exactly radius from the NEGATION of center (hence from
center itself only when center is the origin). -/
theorem C2_campos_distance (s : OrbitCamera) (h : Matrix.transpose s.rot * s.rot = 1)
    (hr : 0 ≤ s.radius) :
    norm3 (fun i => s.campos i - (-(s.center i))) = s.radius := by
  have hcol : s.rot 0 2 ^ 2 + s.rot 1 2 ^ 2 + s.rot 2 2 ^ 2 = 1 := by
    have h22 := congrArg (fun M => M 2 2) h
    simpa [Matrix.mul_apply, Fin.sum_univ_three, Matrix.transpose_apply,
      Matrix.one_apply, sq] using h22
  have hc : (fun i => s.campos i - (-(s.center i))) =
      ![s.rot 0 2 * s.radius, s.rot 1 2 * s.radius, s.rot 2 2 * s.radius] := by
    funext i
    fin_cases i <;> simp [campos_apply] <;> ring
  rw [hc]
  show Real.sqrt ((s.rot 0 2 * s.radius) ^ 2 + (s.rot 1 2 * s.radius) ^ 2 +
    (s.rot 2 2 * s.radius) ^ 2) = s.radius
  have hsq : (s.rot 0 2 * s.radius) ^ 2 + (s.rot 1 2 * s.radius) ^ 2 +
      (s.rot 2 2 * s.radius) ^ 2 = s.radius ^ 2 := by nlinarith [hcol]
  rw [hsq, Real.sqrt_sq hr]

/-- C2 witness: the amended distance identity at the concrete panned camera
(rot = identity, radius 5, center (1,2,3)). -/
theorem C2_campos_distance_witness :
    norm3 (fun i => pannedCamera.campos i - (-(pannedCamera.center i))) =
      pannedCamera.radius :=
  C2_campos_distance pannedCamera
    (by simp [pannedCamera]) (by norm_num [pannedCamera])

/-- Helper: a vector of unit Euclidean norm has unit sum of squares. -/
theorem sq_sum_of_norm3_one (u : Vec3) (hu : norm3 u = 1) :
    u 0 ^ 2 + u 1 ^ 2 + u 2 ^ 2 = 1 := by
  have h0 : (0 : ℝ) ≤ u 0 ^ 2 + u 1 ^ 2 + u 2 ^ 2 := by positivity
  have hs : Real.sqrt (u 0 ^ 2 + u 1 ^ 2 + u 2 ^ 2) ^ 2 =
      u 0 ^ 2 + u 1 ^ 2 + u 2 ^ 2 := Real.sq_sqrt h0
  have hu2 : Real.sqrt (u 0 ^ 2 + u 1 ^ 2 + u 2 ^ 2) = 1 := hu
  rw [hu2] at hs
  simpa using hs.symm

/-- Helper: the norm of a unit vector scaled by t is the absolute value of t. -/
theorem norm3_smul_unit (u : Vec3) (t : ℝ) (hu : norm3 u = 1) :
    norm3 (fun i => u i * t) = |t| := by
  have hsum := sq_sum_of_norm3_one u hu
  show Real.sqrt ((u 0 * t) ^ 2 + (u 1 * t) ^ 2 + (u 2 * t) ^ 2) = |t|
  have h : (u 0 * t) ^ 2 + (u 1 * t) ^ 2 + (u 2 * t) ^ 2 = t ^ 2 := by
    nlinarith [hsum]
  rw [h, Real.sqrt_sq_eq_abs]

/-- Helper: skew of the pointwise negation is the matrix negation. -/
theorem skew_neg_vec (u : Vec3) : skew (fun i => -u i) = -skew u := by
  ext i j
  fin_cases i <;> fin_cases j <;> simp [skew]

/-- Helper: a rotation vector that is a unit axis u scaled by an angle t
produces exactly the axis-angle rotation about u by t, for either sign of t. -/
theorem from_rotvec_unit_axis (u : Vec3) (t : ℝ) (hu : norm3 u = 1) :
    from_rotvec (fun i => u i * t) = axisAngle u t := by
  have hnorm := norm3_smul_unit u t hu
  have key : from_rotvec (fun i => u i * t) =
      1 + Real.sin |t| • skew (fun i => u i * t / |t|) +
        (1 - Real.cos |t|) • (skew (fun i => u i * t / |t|) *
          skew (fun i => u i * t / |t|)) := by
    unfold from_rotvec
    rw [hnorm]
  rw [key]
  rcases lt_trichotomy t 0 with ht | ht | ht
  · have ht' : t ≠ 0 := ne_of_lt ht
    have habs : |t| = -t := abs_of_neg ht
    have hax : (fun i => u i * t / |t|) = fun i => -u i := by
      funext i
      rw [habs, div_neg, mul_div_assoc, div_self ht', mul_one]
    rw [hax, skew_neg_vec, habs, Real.sin_neg, Real.cos_neg, neg_smul, smul_neg,
      neg_neg, neg_mul_neg]
    rfl
  · subst ht
    simp [axisAngle]
  · have ht' : t ≠ 0 := ne_of_gt ht
    have habs : |t| = t := abs_of_pos ht
    have hax : (fun i => u i * t / |t|) = u := by
      funext i
      rw [habs, mul_div_assoc, div_self ht', mul_one]
    rw [hax, habs]
    rfl

/-- C5: orbit(dx, dy) sets the new rotation to (rotation about the world up
axis by angle -0.05 deg * dx) * (rotation about side by angle -0.05 deg * dy)
* (old rotation) in that left-multiplication order, where side is the first
column of the pre-update rotation matrix; the update reads no state field
besides up and rot. -/
theorem C5_orbit_composition (s : OrbitCamera) (dx dy : ℝ)
    (hup : norm3 s.up = 1) (hside : norm3 (fun i => s.rot i 0) = 1) :
    (s.orbit dx dy).rot =
      axisAngle s.up (deg2rad (-0.05 * dx)) *
        axisAngle (fun i => s.rot i 0) (deg2rad (-0.05 * dy)) * s.rot ∧
    ∀ s2 : OrbitCamera, s2.up = s.up → s2.rot = s.rot →
      (s2.orbit dx dy).rot = (s.orbit dx dy).rot := by
  constructor
  · show from_rotvec (fun i => s.up i * deg2rad (-0.05 * dx)) *
      from_rotvec (fun i => s.rot i 0 * deg2rad (-0.05 * dy)) * s.rot = _
    rw [from_rotvec_unit_axis s.up _ hup, from_rotvec_unit_axis _ _ hside]
  · intro s2 h1 h2
    show from_rotvec (fun i => s2.up i * deg2rad (-0.05 * dx)) *
      from_rotvec (fun i => s2.rot i 0 * deg2rad (-0.05 * dy)) * s2.rot =
      from_rotvec (fun i => s.up i * deg2rad (-0.05 * dx)) *
        from_rotvec (fun i => s.rot i 0 * deg2rad (-0.05 * dy)) * s.rot
    rw [h1, h2]

/-- C5 witness: the orbit composition law at a freshly constructed camera with
dx = 2, dy = 3. -/
theorem C5_orbit_composition_witness :
    ((OrbitCamera.init 1 1 2 60 0.01 100).orbit 2 3).rot =
      axisAngle (OrbitCamera.init 1 1 2 60 0.01 100).up (deg2rad (-0.05 * 2)) *
        axisAngle (fun i => (OrbitCamera.init 1 1 2 60 0.01 100).rot i 0)
          (deg2rad (-0.05 * 3)) * (OrbitCamera.init 1 1 2 60 0.01 100).rot ∧
    ∀ s2 : OrbitCamera, s2.up = (OrbitCamera.init 1 1 2 60 0.01 100).up →
      s2.rot = (OrbitCamera.init 1 1 2 60 0.01 100).rot →
      (s2.orbit 2 3).rot = ((OrbitCamera.init 1 1 2 60 0.01 100).orbit 2 3).rot :=
  C5_orbit_composition (OrbitCamera.init 1 1 2 60 0.01 100) 2 3
    (by
      show Real.sqrt ((0 : ℝ) ^ 2 + (1 : ℝ) ^ 2 + (0 : ℝ) ^ 2) = 1
      norm_num)
    (by
      show Real.sqrt (((1 : Mat3) 0 0) ^ 2 + ((1 : Mat3) 1 0) ^ 2 +
        ((1 : Mat3) 2 0) ^ 2) = 1
      rw [Matrix.one_apply_eq, Matrix.one_apply_ne (by decide),
        Matrix.one_apply_ne (by decide)]
      norm_num)

set_option maxHeartbeats 1000000 in
/-- Helper: the pose matrix in closed form (rot block, translation column,
homogeneous bottom row). -/
theorem pose_eq (s : OrbitCamera) :
    s.pose = !![s.rot 0 0, s.rot 0 1, s.rot 0 2, poseTrans s 0;
                s.rot 1 0, s.rot 1 1, s.rot 1 2, poseTrans s 1;
                s.rot 2 0, s.rot 2 1, s.rot 2 2, poseTrans s 2;
                0, 0, 0, 1] := by
  ext i j
  fin_cases i <;> fin_cases j <;>
    simp [OrbitCamera.pose, subCenterCol, rotHom, transRadius, poseTrans,
      Matrix.mul_apply, Matrix.dotProduct, Fin.sum_univ_succ,
      Matrix.vecHead, Matrix.vecTail]

set_option maxHeartbeats 4000000 in
/-- Helper: when rot has orthonormal columns, the explicit candidate is a
right inverse of the pose matrix. -/
theorem pose_mul_poseInvCandidate (s : OrbitCamera)
    (h : Matrix.transpose s.rot * s.rot = 1) :
    s.pose * poseInvCandidate s = 1 := by
  have h' : s.rot * Matrix.transpose s.rot = 1 := Matrix.mul_eq_one_comm.mp h
  have e00 := congrArg (fun M => M 0 0) h'
  have e01 := congrArg (fun M => M 0 1) h'
  have e02 := congrArg (fun M => M 0 2) h'
  have e11 := congrArg (fun M => M 1 1) h'
  have e12 := congrArg (fun M => M 1 2) h'
  have e22 := congrArg (fun M => M 2 2) h'
  simp only [Matrix.mul_apply, Fin.sum_univ_three, Matrix.transpose_apply,
    Matrix.one_apply_eq, Matrix.one_apply_ne (by decide : (0 : Fin 3) ≠ 1),
    Matrix.one_apply_ne (by decide : (0 : Fin 3) ≠ 2),
    Matrix.one_apply_ne (by decide : (1 : Fin 3) ≠ 2)] at e00 e01 e02 e11 e12 e22
  rw [pose_eq s]
  ext i j
  fin_cases i
  · fin_cases j
    · simp [poseInvCandidate, poseTrans, Matrix.mul_apply, Fin.sum_univ_four,
        Matrix.vecHead, Matrix.vecTail, Matrix.one_apply]
      linear_combination e00
    · simp [poseInvCandidate, poseTrans, Matrix.mul_apply, Fin.sum_univ_four,
        Matrix.vecHead, Matrix.vecTail, Matrix.one_apply]
      linear_combination e01
    · simp [poseInvCandidate, poseTrans, Matrix.mul_apply, Fin.sum_univ_four,
        Matrix.vecHead, Matrix.vecTail, Matrix.one_apply]
      linear_combination e02
    · simp [poseInvCandidate, poseTrans, Matrix.mul_apply, Fin.sum_univ_four,
        Matrix.vecHead, Matrix.vecTail, Matrix.one_apply]
      linear_combination (-(s.rot 0 2 * s.radius - s.center 0)) * e00 +
        (-(s.rot 1 2 * s.radius - s.center 1)) * e01 +
        (-(s.rot 2 2 * s.radius - s.center 2)) * e02
  · fin_cases j
    · simp [poseInvCandidate, poseTrans, Matrix.mul_apply, Fin.sum_univ_four,
        Matrix.vecHead, Matrix.vecTail, Matrix.one_apply]
      linear_combination e01
    · simp [poseInvCandidate, poseTrans, Matrix.mul_apply, Fin.sum_univ_four,
        Matrix.vecHead, Matrix.vecTail, Matrix.one_apply]
      linear_combination e11
    · simp [poseInvCandidate, poseTrans, Matrix.mul_apply, Fin.sum_univ_four,
        Matrix.vecHead, Matrix.vecTail, Matrix.one_apply]
      linear_combination e12
    · simp [poseInvCandidate, poseTrans, Matrix.mul_apply, Fin.sum_univ_four,
        Matrix.vecHead, Matrix.vecTail, Matrix.one_apply]
      linear_combination (-(s.rot 0 2 * s.radius - s.center 0)) * e01 +
        (-(s.rot 1 2 * s.radius - s.center 1)) * e11 +
        (-(s.rot 2 2 * s.radius - s.center 2)) * e12
  · fin_cases j
    · simp [poseInvCandidate, poseTrans, Matrix.mul_apply, Fin.sum_univ_four,
        Matrix.vecHead, Matrix.vecTail, Matrix.one_apply]
      linear_combination e02
    · simp [poseInvCandidate, poseTrans, Matrix.mul_apply, Fin.sum_univ_four,
        Matrix.vecHead, Matrix.vecTail, Matrix.one_apply]
      linear_combination e12
    · simp [poseInvCandidate, poseTrans, Matrix.mul_apply, Fin.sum_univ_four,
        Matrix.vecHead, Matrix.vecTail, Matrix.one_apply]
      linear_combination e22
    · simp [poseInvCandidate, poseTrans, Matrix.mul_apply, Fin.sum_univ_four,
        Matrix.vecHead, Matrix.vecTail, Matrix.one_apply]
      linear_combination (-(s.rot 0 2 * s.radius - s.center 0)) * e02 +
        (-(s.rot 1 2 * s.radius - s.center 1)) * e12 +
        (-(s.rot 2 2 * s.radius - s.center 2)) * e22
  · fin_cases j <;>
      simp [poseInvCandidate, poseTrans, Matrix.mul_apply, Fin.sum_univ_four,
        Matrix.vecHead, Matrix.vecTail, Matrix.one_apply]

/-- C4: for every camera state whose rot has orthonormal columns (which holds
in every state reachable from the constructor, where rot stays a proper
rotation), the pose matrix is invertible, view is the matrix inverse of pose,
and pose times view is the 4x4 identity. -/
theorem C4_view_pose_inverse (s : OrbitCamera)
    (h : Matrix.transpose s.rot * s.rot = 1) :
    IsUnit s.pose.det ∧ s.view = s.pose⁻¹ ∧ s.pose * s.view = 1 := by
  have hmul : s.pose * poseInvCandidate s = 1 := pose_mul_poseInvCandidate s h
  have hdet : IsUnit s.pose.det := by
    have hd := congrArg Matrix.det hmul
    rw [Matrix.det_mul, Matrix.det_one] at hd
    exact isUnit_of_mul_eq_one _ _ hd
  refine ⟨hdet, rfl, ?_⟩
  show s.pose * s.pose⁻¹ = 1
  exact Matrix.mul_nonsing_inv _ hdet

/-- C4 witness: the view-pose inverse identity at the concrete panned camera
(rot = identity, radius 5, center (1,2,3)). -/
theorem C4_view_pose_inverse_witness :
    IsUnit pannedCamera.pose.det ∧ pannedCamera.view = pannedCamera.pose⁻¹ ∧
      pannedCamera.pose * pannedCamera.view = 1 :=
  C4_view_pose_inverse pannedCamera (by simp [pannedCamera])

/-- Helper: undo_orbit_camera unfolded entrywise (is_degree = true). -/
theorem undo_orbit_camera_def (T : Mat4) :
    undo_orbit_camera T true =
      (rad2deg (Real.arcsin (-(T 1 3) / norm3 ![T 0 3, T 1 3, T 2 3])),
       rad2deg (arctan2 (T 0 3) (T 2 3)),
       norm3 ![T 0 3, T 1 3, T 2 3]) := rfl

/-- Helper: x entry of the orbit_camera translation column (degrees, default
target, OpenGL convention). -/
theorem orbit_camera_entry03 (e a r : ℝ) :
    orbit_camera e a r true none true 0 3 =
      r * Real.cos (deg2rad e) * Real.sin (deg2rad a) := by
  simp [orbit_camera]

/-- Helper: y entry of the orbit_camera translation column. -/
theorem orbit_camera_entry13 (e a r : ℝ) :
    orbit_camera e a r true none true 1 3 = -(r * Real.sin (deg2rad e)) := by
  simp [orbit_camera]

/-- Helper: z entry of the orbit_camera translation column. -/
theorem orbit_camera_entry23 (e a r : ℝ) :
    orbit_camera e a r true none true 2 3 =
      r * Real.cos (deg2rad e) * Real.cos (deg2rad a) := by
  simp [orbit_camera]

/-- C1: for every elevation in (-90, 90) degrees, azimuth in (-180, 180)
degrees and radius > 0, with the default origin target,
undo_orbit_camera (orbit_camera elevation azimuth radius) returns exactly the
same (elevation, azimuth, radius) triple (exact in real arithmetic, hence
within floating-point tolerance). -/
theorem C1_round_trip (e a r : ℝ) (he : -90 < e ∧ e < 90)
    (ha : -180 < a ∧ a < 180) (hr : 0 < r) :
    undo_orbit_camera (orbit_camera e a r true none true) true = (e, a, r) := by
  have hpi : 0 < Real.pi := Real.pi_pos
  have hde1 : -(Real.pi / 2) < deg2rad e := by
    unfold deg2rad
    nlinarith [mul_pos (by linarith [he.1] : (0:ℝ) < e + 90)
      (by positivity : (0:ℝ) < Real.pi / 180)]
  have hde2 : deg2rad e < Real.pi / 2 := by
    unfold deg2rad
    nlinarith [mul_pos (by linarith [he.2] : (0:ℝ) < 90 - e)
      (by positivity : (0:ℝ) < Real.pi / 180)]
  have hda1 : -Real.pi < deg2rad a := by
    unfold deg2rad
    nlinarith [mul_pos (by linarith [ha.1] : (0:ℝ) < a + 180)
      (by positivity : (0:ℝ) < Real.pi / 180)]
  have hda2 : deg2rad a < Real.pi := by
    unfold deg2rad
    nlinarith [mul_pos (by linarith [ha.2] : (0:ℝ) < 180 - a)
      (by positivity : (0:ℝ) < Real.pi / 180)]
  have hce : 0 < Real.cos (deg2rad e) := Real.cos_pos_of_mem_Ioo ⟨hde1, hde2⟩
  rw [undo_orbit_camera_def, orbit_camera_entry03, orbit_camera_entry13,
    orbit_camera_entry23]
  have hnorm : norm3 ![r * Real.cos (deg2rad e) * Real.sin (deg2rad a),
      -(r * Real.sin (deg2rad e)),
      r * Real.cos (deg2rad e) * Real.cos (deg2rad a)] = r := by
    show Real.sqrt ((r * Real.cos (deg2rad e) * Real.sin (deg2rad a)) ^ 2 +
      (-(r * Real.sin (deg2rad e))) ^ 2 +
      (r * Real.cos (deg2rad e) * Real.cos (deg2rad a)) ^ 2) = r
    have hsq : (r * Real.cos (deg2rad e) * Real.sin (deg2rad a)) ^ 2 +
        (-(r * Real.sin (deg2rad e))) ^ 2 +
        (r * Real.cos (deg2rad e) * Real.cos (deg2rad a)) ^ 2 = r ^ 2 := by
      linear_combination (r ^ 2 * Real.cos (deg2rad e) ^ 2) *
          Real.sin_sq_add_cos_sq (deg2rad a) +
        r ^ 2 * Real.sin_sq_add_cos_sq (deg2rad e)
    rw [hsq, Real.sqrt_sq hr.le]
  rw [hnorm]
  have hsin : -(-(r * Real.sin (deg2rad e))) / r = Real.sin (deg2rad e) := by
    field_simp
  rw [hsin, Real.arcsin_sin hde1.le hde2.le]
  have harg : arctan2 (r * Real.cos (deg2rad e) * Real.sin (deg2rad a))
      (r * Real.cos (deg2rad e) * Real.cos (deg2rad a)) = deg2rad a := by
    unfold arctan2
    have hmul : ((r * Real.cos (deg2rad e) * Real.cos (deg2rad a) : ℝ) : ℂ) +
        ((r * Real.cos (deg2rad e) * Real.sin (deg2rad a) : ℝ) : ℂ) * Complex.I =
        ((r * Real.cos (deg2rad e) : ℝ) : ℂ) *
          (Complex.cos ((deg2rad a : ℝ) : ℂ) +
            Complex.sin ((deg2rad a : ℝ) : ℂ) * Complex.I) := by
      push_cast
      ring
    rw [hmul]
    exact Complex.arg_mul_cos_add_sin_mul_I (by positivity) ⟨hda1, hda2.le⟩
  rw [harg]
  have hre : rad2deg (deg2rad e) = e := by
    unfold rad2deg deg2rad
    field_simp
  have hra : rad2deg (deg2rad a) = a := by
    unfold rad2deg deg2rad
    field_simp
  rw [hre, hra]

/-- C1 witness: the round trip at elevation 45, azimuth 60, radius 2. -/
theorem C1_round_trip_witness :
    undo_orbit_camera (orbit_camera 45 60 2 true none true) true = (45, 60, 2) :=
  C1_round_trip 45 60 2 (by norm_num) (by norm_num) (by norm_num)

/-- Helper: the look_at rotation for a camera on the orbit sphere (angles u =
elevation, v = azimuth, both already in radians, radius r, target the
origin), written out in closed form. -/
theorem look_at_orbit_matrix (u v r : ℝ) (hr : 0 < r) (hc : 0 < Real.cos u) :
    look_at ![r * Real.cos u * Real.sin v, -(r * Real.sin u),
        r * Real.cos u * Real.cos v] (fun _ => 0) true =
    !![Real.cos v, Real.sin u * Real.sin v, Real.cos u * Real.sin v;
       0, Real.cos u, -Real.sin u;
       -Real.sin v, Real.sin u * Real.cos v, Real.cos u * Real.cos v] := by
  have hr0 : r ≠ 0 := ne_of_gt hr
  have hc0 : Real.cos u ≠ 0 := ne_of_gt hc
  have hn : norm3 ![r * Real.cos u * Real.sin v, -(r * Real.sin u),
      r * Real.cos u * Real.cos v] = r := by
    show Real.sqrt ((r * Real.cos u * Real.sin v) ^ 2 +
      (-(r * Real.sin u)) ^ 2 + (r * Real.cos u * Real.cos v) ^ 2) = r
    have hsq : (r * Real.cos u * Real.sin v) ^ 2 + (-(r * Real.sin u)) ^ 2 +
        (r * Real.cos u * Real.cos v) ^ 2 = r ^ 2 := by
      linear_combination (r ^ 2 * Real.cos u ^ 2) * Real.sin_sq_add_cos_sq v +
        r ^ 2 * Real.sin_sq_add_cos_sq u
    rw [hsq, Real.sqrt_sq hr.le]
  have hf : safe_normalize ![r * Real.cos u * Real.sin v, -(r * Real.sin u),
      r * Real.cos u * Real.cos v] =
      ![Real.cos u * Real.sin v, -Real.sin u, Real.cos u * Real.cos v] := by
    funext k
    show (![r * Real.cos u * Real.sin v, -(r * Real.sin u),
      r * Real.cos u * Real.cos v] : Vec3) k / norm3 _ = _
    rw [hn]
    fin_cases k
    · show r * Real.cos u * Real.sin v / r = Real.cos u * Real.sin v
      field_simp
      ring
    · show -(r * Real.sin u) / r = -Real.sin u
      field_simp
      ring
    · show r * Real.cos u * Real.cos v / r = Real.cos u * Real.cos v
      field_simp
      ring
  have hcr : cross3 ![0, 1, 0]
      ![Real.cos u * Real.sin v, -Real.sin u, Real.cos u * Real.cos v] =
      ![Real.cos u * Real.cos v, 0, -(Real.cos u * Real.sin v)] := by
    funext k
    fin_cases k <;> simp [cross3]
  have hnr : norm3 ![Real.cos u * Real.cos v, 0, -(Real.cos u * Real.sin v)] =
      Real.cos u := by
    show Real.sqrt ((Real.cos u * Real.cos v) ^ 2 + (0 : ℝ) ^ 2 +
      (-(Real.cos u * Real.sin v)) ^ 2) = Real.cos u
    have hsq : (Real.cos u * Real.cos v) ^ 2 + (0 : ℝ) ^ 2 +
        (-(Real.cos u * Real.sin v)) ^ 2 = Real.cos u ^ 2 := by
      linear_combination Real.cos u ^ 2 * Real.sin_sq_add_cos_sq v
    rw [hsq, Real.sqrt_sq hc.le]
  have hright : safe_normalize
      ![Real.cos u * Real.cos v, 0, -(Real.cos u * Real.sin v)] =
      ![Real.cos v, 0, -Real.sin v] := by
    funext k
    show (![Real.cos u * Real.cos v, 0, -(Real.cos u * Real.sin v)] : Vec3) k /
      norm3 _ = _
    rw [hnr]
    fin_cases k
    · show Real.cos u * Real.cos v / Real.cos u = Real.cos v
      field_simp
    · show (0 : ℝ) / Real.cos u = 0
      simp
    · show -(Real.cos u * Real.sin v) / Real.cos u = -Real.sin v
      field_simp
      ring
  have hcr2 : cross3
      ![Real.cos u * Real.sin v, -Real.sin u, Real.cos u * Real.cos v]
      ![Real.cos v, 0, -Real.sin v] =
      ![Real.sin u * Real.sin v, Real.cos u, Real.sin u * Real.cos v] := by
    funext k
    fin_cases k
    · simp [cross3]
    · simp [cross3]
      linear_combination Real.cos u * Real.sin_sq_add_cos_sq v
    · simp [cross3]
  have hnu : norm3
      ![Real.sin u * Real.sin v, Real.cos u, Real.sin u * Real.cos v] = 1 := by
    show Real.sqrt ((Real.sin u * Real.sin v) ^ 2 + Real.cos u ^ 2 +
      (Real.sin u * Real.cos v) ^ 2) = 1
    have hsq : (Real.sin u * Real.sin v) ^ 2 + Real.cos u ^ 2 +
        (Real.sin u * Real.cos v) ^ 2 = 1 := by
      linear_combination Real.sin u ^ 2 * Real.sin_sq_add_cos_sq v +
        Real.sin_sq_add_cos_sq u
    rw [hsq, Real.sqrt_one]
  have hup : safe_normalize
      ![Real.sin u * Real.sin v, Real.cos u, Real.sin u * Real.cos v] =
      ![Real.sin u * Real.sin v, Real.cos u, Real.sin u * Real.cos v] := by
    funext k
    show (![Real.sin u * Real.sin v, Real.cos u, Real.sin u * Real.cos v] :
      Vec3) k / norm3 _ = _
    rw [hnu, div_one]
  have hsub : (fun i =>
      (![r * Real.cos u * Real.sin v, -(r * Real.sin u),
        r * Real.cos u * Real.cos v] : Vec3) i - (fun _ => (0 : ℝ)) i) =
      ![r * Real.cos u * Real.sin v, -(r * Real.sin u),
        r * Real.cos u * Real.cos v] := by
    funext k
    simp
  simp only [look_at]
  rw [hsub, hf, hcr, hright, hcr2, hup]
  ext i j
  fin_cases i <;> fin_cases j <;> simp

/-- C3: for every elevation in (-89, 89) degrees, azimuth in (-179, 179)
degrees and radius > 0, the upper-left 3x3 block of orbit_camera (OpenGL
convention, default origin target) has unit-length, mutually orthogonal
columns (its transpose times itself is the identity) and determinant +1. -/
theorem C3_rotation_orthonormal (e a r : ℝ) (he : -89 < e ∧ e < 89)
    (ha : -179 < a ∧ a < 179) (hr : 0 < r) :
    Matrix.transpose (ul3 (orbit_camera e a r true none true)) *
        ul3 (orbit_camera e a r true none true) = 1 ∧
      (ul3 (orbit_camera e a r true none true)).det = 1 := by
  have hpi : 0 < Real.pi := Real.pi_pos
  have hde1 : -(Real.pi / 2) < deg2rad e := by
    unfold deg2rad
    nlinarith [mul_pos (by linarith [he.1] : (0:ℝ) < e + 90)
      (by positivity : (0:ℝ) < Real.pi / 180)]
  have hde2 : deg2rad e < Real.pi / 2 := by
    unfold deg2rad
    nlinarith [mul_pos (by linarith [he.2] : (0:ℝ) < 90 - e)
      (by positivity : (0:ℝ) < Real.pi / 180)]
  have hce : 0 < Real.cos (deg2rad e) := Real.cos_pos_of_mem_Ioo ⟨hde1, hde2⟩
  have hul : ul3 (orbit_camera e a r true none true) =
      look_at (fun i =>
        (![r * Real.cos (deg2rad e) * Real.sin (deg2rad a),
           -r * Real.sin (deg2rad e),
           r * Real.cos (deg2rad e) * Real.cos (deg2rad a)] : Vec3) i +
          (fun _ => (0 : ℝ)) i) (fun _ => 0) true := by
    ext i j
    fin_cases i <;> fin_cases j <;> rfl
  have hfix : (fun i =>
      (![r * Real.cos (deg2rad e) * Real.sin (deg2rad a),
         -r * Real.sin (deg2rad e),
         r * Real.cos (deg2rad e) * Real.cos (deg2rad a)] : Vec3) i +
        (fun _ => (0 : ℝ)) i) =
      ![r * Real.cos (deg2rad e) * Real.sin (deg2rad a),
        -(r * Real.sin (deg2rad e)),
        r * Real.cos (deg2rad e) * Real.cos (deg2rad a)] := by
    funext k
    fin_cases k <;> simp
  rw [hul, hfix, look_at_orbit_matrix (deg2rad e) (deg2rad a) r hr hce]
  constructor
  · ext i j
    fin_cases i <;> fin_cases j
    · simp [Matrix.mul_apply, Fin.sum_univ_three, Matrix.vecHead, Matrix.vecTail]
      linear_combination Real.sin_sq_add_cos_sq (deg2rad a)
    · simp [Matrix.mul_apply, Fin.sum_univ_three, Matrix.vecHead, Matrix.vecTail]
      ring
    · simp [Matrix.mul_apply, Fin.sum_univ_three, Matrix.vecHead, Matrix.vecTail]
      ring
    · simp [Matrix.mul_apply, Fin.sum_univ_three, Matrix.vecHead, Matrix.vecTail]
      ring
    · simp [Matrix.mul_apply, Fin.sum_univ_three, Matrix.vecHead, Matrix.vecTail]
      linear_combination Real.sin (deg2rad e) ^ 2 *
          Real.sin_sq_add_cos_sq (deg2rad a) +
        Real.sin_sq_add_cos_sq (deg2rad e)
    · simp [Matrix.mul_apply, Fin.sum_univ_three, Matrix.vecHead, Matrix.vecTail]
      linear_combination (Real.sin (deg2rad e) * Real.cos (deg2rad e)) *
        Real.sin_sq_add_cos_sq (deg2rad a)
    · simp [Matrix.mul_apply, Fin.sum_univ_three, Matrix.vecHead, Matrix.vecTail]
      ring
    · simp [Matrix.mul_apply, Fin.sum_univ_three, Matrix.vecHead, Matrix.vecTail]
      linear_combination (Real.sin (deg2rad e) * Real.cos (deg2rad e)) *
        Real.sin_sq_add_cos_sq (deg2rad a)
    · simp [Matrix.mul_apply, Fin.sum_univ_three, Matrix.vecHead, Matrix.vecTail]
      linear_combination Real.cos (deg2rad e) ^ 2 *
          Real.sin_sq_add_cos_sq (deg2rad a) +
        Real.sin_sq_add_cos_sq (deg2rad e)
  · rw [Matrix.det_fin_three]
    simp [Matrix.vecHead, Matrix.vecTail]
    linear_combination (Real.sin (deg2rad a) ^ 2 + Real.cos (deg2rad a) ^ 2) *
        Real.sin_sq_add_cos_sq (deg2rad e) +
      Real.sin_sq_add_cos_sq (deg2rad a)

/-- C3 witness: the orthonormality and determinant facts at elevation 30,
azimuth 45, radius 2. -/
theorem C3_rotation_orthonormal_witness :
    Matrix.transpose (ul3 (orbit_camera 30 45 2 true none true)) *
        ul3 (orbit_camera 30 45 2 true none true) = 1 ∧
      (ul3 (orbit_camera 30 45 2 true none true)).det = 1 :=
  C3_rotation_orthonormal 30 45 2 (by norm_num) (by norm_num) (by norm_num)

end

end Kiui
